import Mathlib

/-!
# CoralSwap SDK — verification of the event decoder and the AMM math engine

This file gives a shallow embedding of the CoralSwap SDK core:

* the pair-event decoder (`decodePairEvents` and its helpers), translated from
  the TypeScript source in the repository (the events module);
* the pricing and liquidity math (`sqrt`, `getAmountOut`, `getAmountIn`,
  `getAddLiquidityQuote`), whose implementation files are absent from the
  source snapshot (only their test suites are present); these are modelled
  from the specification, as marked in their doc comments.

TypeScript `bigint` values are embedded as `Int` (both are arbitrary
precision); `bigint` division truncates toward zero, which agrees with the
floor division used here on the non-negative operands arising in every
validated code path.  Thrown exceptions are embedded as the `error` case of
`Except`.
-/

namespace CoralSwap

/-- Error kinds of the SDK (`src/errors`): `ValidationError` for bad or
out-of-domain input, `TransactionError` for failed submissions. -/
inductive SdkError where
  | validation (msg : String)
  | transaction (msg : String)
deriving DecidableEq, Repr

/-- Decides whether a result is a thrown `ValidationError`. -/
def isValidationFailure {α : Type} : Except SdkError α → Bool
  | .error (.validation _) => true
  | _ => false

/-- Decidable equality on results, so that concrete runs can be checked by
`decide`. -/
instance {ε α : Type} [DecidableEq ε] [DecidableEq α] : DecidableEq (Except ε α) := fun x y =>
  match x, y with
  | .ok a, .ok b =>
    if h : a = b then isTrue (by rw [h]) else isFalse (by intro hh; cases hh; exact h rfl)
  | .error a, .error b =>
    if h : a = b then isTrue (by rw [h]) else isFalse (by intro hh; cases hh; exact h rfl)
  | .ok _, .error _ => isFalse (by intro hh; cases hh)
  | .error _, .ok _ => isFalse (by intro hh; cases hh)

/-! ## Event decoder data model

Embedding of the XDR values the decoder touches.  An `ScVal` is restricted to
the arms the source distinguishes: `i128` numerics, addresses, symbols, and
vectors (whose element list is optional in XDR, hence the non-null assertion
`data.vec()!` in the source). -/

/-- Model of an XDR `ScVal`, restricted to the arms the decoder touches. -/
inductive ScVal where
  | i128 (n : Int)
  | address (s : String)
  | sym (s : String)
  | vec (elems : Option (List ScVal))
  | void

/-- Model of `scValToNative` in string position (`as string` performs no
runtime conversion in TypeScript, so this is total): symbols and addresses
yield their string, numerics yield their decimal rendering (which never
equals an event-name tag), other arms yield a marker that equals no tag. -/
def scValStr : ScVal → String
  | .address s => s
  | .sym s => s
  | .i128 n => toString n
  | .vec _ => ""
  | .void => ""

/-- Model of `readAddress`: `scValToNative(val) as string`.  Total — the
`as string` cast has no runtime effect. -/
def readAddress (val : ScVal) : String :=
  scValStr val

/-- Model of `readI128`: `BigInt(scValToNative(val))`.  The `BigInt`
coercion succeeds on numerics and on numeric strings and throws a
`TypeError`/`SyntaxError` otherwise; a throw is embedded as `error`. -/
def readI128 (val : ScVal) : Except String Int :=
  match val with
  | .i128 n => .ok n
  | .address s =>
    match s.toInt? with
    | some n => .ok n
    | none => .error ("BigInt conversion of non-numeric string")
  | .sym s =>
    match s.toInt? with
    | some n => .ok n
    | none => .error ("BigInt conversion of non-numeric string")
  | .vec _ => .error ("BigInt conversion of vector")
  | .void => .error ("BigInt conversion of void")

/-- Indexing `xs[i]` in the source followed by use of the element: an
out-of-range access yields `undefined`, and both `scValToNative(undefined)`
and `BigInt(undefined)` throw; the throw is embedded as `error`. -/
def getScVal (xs : List ScVal) (i : Nat) : Except String ScVal :=
  match xs[i]? with
  | some v => .ok v
  | none => .error ("undefined element access")

/-- Model of `data.vec()!` followed by indexing into the result: accessing
the wrong union arm throws, and a null vector makes the subsequent index
access throw. -/
def scValVecFields (data : ScVal) : Except String (List ScVal) :=
  match data with
  | .vec (some fields) => .ok fields
  | .vec none => .error ("null vec")
  | _ => .error ("not a vec")

/-- The `PairEvent` tagged union of the source: `mint`, `burn`, `swap` and
`sync` pool-state events, each carrying the emitting contract identifier. -/
inductive PairEvent where
  | mint (contractId sender : String) (amount0 amount1 liquidity : Int)
  | burn (contractId sender : String) (amount0 amount1 liquidity : Int) (toAddr : String)
  | swap (contractId sender tokenIn tokenOut : String) (amountIn amountOut : Int)
  | sync (contractId : String) (reserve0 reserve1 : Int)

/-- The `contractId` field shared by every `PairEvent` variant. -/
def PairEvent.contractId : PairEvent → String
  | .mint cid _ _ _ _ => cid
  | .burn cid _ _ _ _ _ => cid
  | .swap cid _ _ _ _ _ => cid
  | .sync cid _ _ => cid

/-- A contract event of the execution record: a (possibly absent) contract
identifier — already in its encoded string form, `StrKey.encodeContract`
being an injective total encoding of the raw 32 bytes — an ordered topic
list, and one data payload. -/
structure ContractEvent where
  contractId : Option String
  topics : List ScVal
  data : ScVal

/-- The Soroban section of a transaction meta: the emitted contract events. -/
structure SorobanTransactionMeta where
  events : List ContractEvent

/-- A transaction execution record: a version discriminant (`switch()`) and
an optional Soroban section (present only in version 3 records). -/
structure TransactionMeta where
  version : Int
  sorobanMeta : Option SorobanTransactionMeta

/-- Translation of `decodeMintData`: `fields = data.vec()!`, sender from
`topics[1]`, then `amount0`, `amount1`, `liquidity` from `fields[0..2]`. -/
def decodeMintData (contractId : String) (topics : List ScVal) (data : ScVal) :
    Except String PairEvent := do
  let fields ← scValVecFields data
  let senderVal ← getScVal topics 1
  let f0 ← getScVal fields 0
  let amount0 ← readI128 f0
  let f1 ← getScVal fields 1
  let amount1 ← readI128 f1
  let f2 ← getScVal fields 2
  let liquidity ← readI128 f2
  return PairEvent.mint contractId (readAddress senderVal) amount0 amount1 liquidity

/-- Translation of `decodeBurnData`: like `mint` plus `to` from `fields[3]`. -/
def decodeBurnData (contractId : String) (topics : List ScVal) (data : ScVal) :
    Except String PairEvent := do
  let fields ← scValVecFields data
  let senderVal ← getScVal topics 1
  let f0 ← getScVal fields 0
  let amount0 ← readI128 f0
  let f1 ← getScVal fields 1
  let amount1 ← readI128 f1
  let f2 ← getScVal fields 2
  let liquidity ← readI128 f2
  let f3 ← getScVal fields 3
  return PairEvent.burn contractId (readAddress senderVal) amount0 amount1 liquidity
    (readAddress f3)

/-- Translation of `decodeSwapData`: sender from `topics[1]`, then
`tokenIn`, `tokenOut`, `amountIn`, `amountOut` from `fields[0..3]`. -/
def decodeSwapData (contractId : String) (topics : List ScVal) (data : ScVal) :
    Except String PairEvent := do
  let fields ← scValVecFields data
  let senderVal ← getScVal topics 1
  let f0 ← getScVal fields 0
  let f1 ← getScVal fields 1
  let f2 ← getScVal fields 2
  let amountIn ← readI128 f2
  let f3 ← getScVal fields 3
  let amountOut ← readI128 f3
  return PairEvent.swap contractId (readAddress senderVal) (readAddress f0)
    (readAddress f1) amountIn amountOut

/-- Translation of `decodeSyncData`: `reserve0`, `reserve1` from
`fields[0..1]`; no topic beyond the tag is read. -/
def decodeSyncData (contractId : String) (data : ScVal) :
    Except String PairEvent := do
  let fields ← scValVecFields data
  let f0 ← getScVal fields 0
  let reserve0 ← readI128 f0
  let f1 ← getScVal fields 1
  let reserve1 ← readI128 f1
  return PairEvent.sync contractId reserve0 reserve1

/-- One iteration of the `for` loop body of `decodePairEvents`: `ok none`
models `continue` (event skipped), `ok (some ev)` models a `push`, and
`error` models a throw escaping the loop. -/
def processEvent (pairContractId : String) (event : ContractEvent) :
    Except String (Option PairEvent) :=
  match event.contractId with
  | none => .ok none
  | some id =>
    if id = pairContractId then
      match event.topics with
      | [] => .ok none
      | t0 :: _ =>
        if scValStr t0 = "mint" then Except.map some (decodeMintData id event.topics event.data)
        else if scValStr t0 = "burn" then Except.map some (decodeBurnData id event.topics event.data)
        else if scValStr t0 = "swap" then Except.map some (decodeSwapData id event.topics event.data)
        else if scValStr t0 = "sync" then Except.map some (decodeSyncData id event.data)
        else .ok none
    else .ok none

/-- The `for` loop of `decodePairEvents` over the record's event list:
results are accumulated in event order, and a throw aborts the loop. -/
def decodeEventList (pairContractId : String) :
    List ContractEvent → Except String (List PairEvent)
  | [] => .ok []
  | e :: rest =>
    match processEvent pairContractId e with
    | .error msg => .error msg
    | .ok none => decodeEventList pairContractId rest
    | .ok (some ev) => Except.map (fun tail => ev :: tail) (decodeEventList pairContractId rest)

/-- Translation of `decodePairEvents`: an unrecognized record version
(`switch() !== 3`) or a missing Soroban section yields the empty list;
otherwise the record's events are scanned in order. -/
def decodePairEvents (txMeta : TransactionMeta) (pairContractId : String) :
    Except String (List PairEvent) :=
  if txMeta.version ≠ 3 then .ok []
  else
    match txMeta.sorobanMeta with
    | none => .ok []
    | some meta => decodeEventList pairContractId meta.events

example :
    decodePairEvents ⟨3, some ⟨[⟨some "CPOOL", [ScVal.sym "mint"], ScVal.i128 0⟩]⟩⟩ "CPOOL"
      = .error ("not a vec") := rfl

example :
    decodePairEvents
      ⟨3, some ⟨[⟨some "CPOOL", [ScVal.sym "swap", ScVal.address "GSENDER"],
        ScVal.vec (some [ScVal.address "TA", ScVal.address "TB", ScVal.i128 5, ScVal.i128 4])⟩]⟩⟩
      "CPOOL"
      = .ok [PairEvent.swap "CPOOL" "GSENDER" "TA" "TB" 5 4] := rfl

example :
    decodePairEvents ⟨2, some ⟨[⟨some "CPOOL", [ScVal.sym "mint"], ScVal.i128 0⟩]⟩⟩ "CPOOL"
      = .ok [] := rfl

/-! ## Pricing and liquidity math

The implementation files of the math engine (`src/modules/swap.ts`,
`src/modules/liquidity.ts`, `src/config.ts`) are absent from the source
snapshot — only their test suites are present — so the definitions below are
modelled from the specification. -/

/-- Modelled from the spec: `PRECISION.MIN_LIQUIDITY` of `src/config` (absent
from the snapshot), the fixed minimum liquidity permanently locked on first
deposit.  The spec does not pin its numeric value; the claims below use it
only symbolically, and the conventional constant 1000 is chosen here. -/
def MIN_LIQUIDITY : Int := 1000

/-- Modelled from the spec: `PRECISION.PRICE_SCALE` of `src/config` (absent
from the snapshot), the fixed-point scale of the advisory price ratios.  The
spec does not pin its numeric value; the claims below use it only
symbolically. -/
def PRICE_SCALE : Int := 10000000

/-- Modelled from the spec: `SwapEngine.getAmountOut` of `src/modules/swap`
(absent from the snapshot; its tests are in `src/tests`).  Validation checks
in spec order, then
`amountInWithFee = amountIn * (10000 - feeBps)`,
`numerator = amountInWithFee * reserveOut`,
`denominator = reserveIn * 10000 + amountInWithFee`,
result `numerator / denominator` rounded down. -/
def getAmountOut (amountIn reserveIn reserveOut feeBps : Int) : Except SdkError Int :=
  if amountIn ≤ 0 then .error (.validation ("amount must be greater than zero"))
  else if reserveIn ≤ 0 ∨ reserveOut ≤ 0 then .error (.validation ("insufficient liquidity"))
  else
    let amountInWithFee := amountIn * (10000 - feeBps)
    let numerator := amountInWithFee * reserveOut
    let denominator := reserveIn * 10000 + amountInWithFee
    .ok (numerator / denominator)

/-- Modelled from the spec: `SwapEngine.getAmountIn` of `src/modules/swap`
(absent from the snapshot; its tests are in `src/tests`).  Validation checks
in spec order, then
`numerator = reserveIn * amountOut * 10000`,
`denominator = (reserveOut - amountOut) * (10000 - feeBps)`,
result `numerator / denominator` rounded up; for a positive denominator the
expression below is exactly that ceiling. -/
def getAmountIn (amountOut reserveIn reserveOut feeBps : Int) : Except SdkError Int :=
  if amountOut ≤ 0 then .error (.validation ("amount must be greater than zero"))
  else if reserveIn ≤ 0 ∨ reserveOut ≤ 0 then .error (.validation ("insufficient liquidity"))
  else if reserveOut ≤ amountOut then .error (.validation ("output exceeds available reserve"))
  else
    let numerator := reserveIn * amountOut * 10000
    let denominator := (reserveOut - amountOut) * (10000 - feeBps)
    .ok ((numerator + denominator - 1) / denominator)

/-- The Babylonian iteration of the spec's `IntegerMath.sqrt`: repeatedly
replace the estimate `x` by `(x + value / x) / 2` while that strictly
decreases it, then return `x`.  The `while` loop of the source is embedded
with explicit fuel; each iteration strictly decreases `x`, so any fuel bound
of at least the initial estimate makes the fuel case unreachable. -/
def babylonianGo (value : Nat) : Nat → Nat → Nat
  | 0, x => x
  | fuel + 1, x =>
    if (x + value / x) / 2 < x then babylonianGo value fuel ((x + value / x) / 2) else x

/-- Modelled from the spec: `IntegerMath.sqrt` (the private `sqrt` of
`src/modules/liquidity`, absent from the snapshot; its tests are in
`src/tests` and `src/unnamed/part_000`).  Fails `ValidationError` on
negative input, otherwise runs the Babylonian iteration from the initial
estimate `value / 2 + 1`, which is at least the true root. -/
def sqrt (value : Int) : Except SdkError Int :=
  if value < 0 then .error (.validation ("square root of negative number"))
  else
    .ok ((babylonianGo value.toNat (value.toNat / 2 + 1) (value.toNat / 2 + 1) : Nat) : Int)

/-- A pool's canonical state as consumed by the liquidity engine: canonical
token pair, reserves, and LP total supply. -/
structure PoolState where
  token0 : String
  token1 : String
  reserve0 : Int
  reserve1 : Int
  totalSupply : Int

/-- The `LiquidityQuote` structure of the spec.  `shareOfPool` is an
advisory floating ratio in the source; it is embedded as an exact rational. -/
structure LiquidityQuote where
  amountA : Int
  amountB : Int
  estimatedLPTokens : Int
  shareOfPool : ℚ
  priceAPerB : Int
  priceBPerA : Int
deriving DecidableEq

/-- Modelled from the spec: `LiquidityModule.getAddLiquidityQuote` of
`src/modules/liquidity` (absent from the snapshot; its tests are in
`src/tests`).  The externally fetched pool state is passed as an explicit
`Option PoolState` (`none` models the first-deposit path, where the registry
reports no pair).  First deposit: `amountA = amountADesired`, `amountB` the
supplied desired B or else `amountADesired`,
`estimatedLPTokens = sqrt (amountA * amountB) - MIN_LIQUIDITY` failing
`ValidationError` when that would be nonpositive, full pool share, and 1:1
prices at `PRICE_SCALE`.  Existing pool: `tokenA` is mapped onto the
canonical pair to pick `reserveA`/`reserveB`, and the proportional formulas
of the spec apply. -/
def getAddLiquidityQuote (pool : Option PoolState) (tokenA tokenB : String)
    (amountADesired : Int) (amountBDesired : Option Int) : Except SdkError LiquidityQuote :=
  match pool with
  | none =>
    match sqrt (amountADesired * amountBDesired.getD amountADesired) with
    | .error e => .error e
    | .ok s =>
      if s - MIN_LIQUIDITY ≤ 0 then
        .error (.validation ("deposit too small to mint liquidity"))
      else
        .ok ⟨amountADesired, amountBDesired.getD amountADesired, s - MIN_LIQUIDITY, 1,
          PRICE_SCALE, PRICE_SCALE⟩
  | some st =>
    let reserveA := if tokenA = st.token0 then st.reserve0 else st.reserve1
    let reserveB := if tokenA = st.token0 then st.reserve1 else st.reserve0
    let amountA := amountADesired
    let amountB := amountADesired * reserveB / reserveA
    let estimatedLPTokens := amountA * st.totalSupply / reserveA
    let shareOfPool : ℚ := (estimatedLPTokens : ℚ) / ((st.totalSupply + estimatedLPTokens : Int) : ℚ)
    .ok ⟨amountA, amountB, estimatedLPTokens, shareOfPool,
      reserveB * PRICE_SCALE / reserveA, reserveA * PRICE_SCALE / reserveB⟩

example : getAmountOut 1000 10000 10000 30 = .ok 906 := by decide
example : getAmountOut 0 10000 10000 30 =
    .error (.validation ("amount must be greater than zero")) := by decide
example : getAmountOut 1000 10000 10000 10000 = .ok 0 := by decide
example : getAmountOut 1 10000 1 0 = .ok 0 := by decide
example : getAmountOut 2 10000 1 0 = .ok 0 := by decide
example : getAmountOut 1000 10000 10000 0 = .ok 909 := by decide
example : getAmountOut 1000 10000 10000 1 = .ok 909 := by decide
example : getAmountIn 1000 10000 10000 0 = .ok 1112 := by decide
example : getAmountIn 2000 1000 1000 30 =
    .error (.validation ("output exceeds available reserve")) := by decide
example : sqrt 0 = .ok 0 := by decide
example : sqrt 1 = .ok 1 := by decide
example : sqrt 2 = .ok 1 := by decide
example : sqrt 10 = .ok 3 := by decide
example : sqrt (-1) = .error (.validation ("square root of negative number")) := by decide

/-! ## Decoder lemmas -/

/-- Decides whether a decoder run ended in a thrown error. -/
def isDecodeError {α : Type} : Except String α → Bool
  | .error _ => true
  | _ => false

lemma except_bind_ok {ε α β : Type} {ma : Except ε α} {f : α → Except ε β} {b : β}
    (h : ma >>= f = .ok b) : ∃ a, ma = .ok a ∧ f a = .ok b := by
  cases ma with
  | error e => simp [Bind.bind, Except.bind] at h
  | ok a => exact ⟨a, rfl, by simpa [Bind.bind, Except.bind] using h⟩

lemma decodeMintData_contractId {cid : String} {t : List ScVal} {d : ScVal} {ev : PairEvent}
    (h : decodeMintData cid t d = .ok ev) : ev.contractId = cid := by
  unfold decodeMintData at h
  obtain ⟨fields, -, h⟩ := except_bind_ok h
  obtain ⟨sv, -, h⟩ := except_bind_ok h
  obtain ⟨f0, -, h⟩ := except_bind_ok h
  obtain ⟨a0, -, h⟩ := except_bind_ok h
  obtain ⟨f1, -, h⟩ := except_bind_ok h
  obtain ⟨a1, -, h⟩ := except_bind_ok h
  obtain ⟨f2, -, h⟩ := except_bind_ok h
  obtain ⟨liq, -, h⟩ := except_bind_ok h
  simp only [pure, Except.pure, Except.ok.injEq] at h
  subst h
  rfl

lemma decodeBurnData_contractId {cid : String} {t : List ScVal} {d : ScVal} {ev : PairEvent}
    (h : decodeBurnData cid t d = .ok ev) : ev.contractId = cid := by
  unfold decodeBurnData at h
  obtain ⟨fields, -, h⟩ := except_bind_ok h
  obtain ⟨sv, -, h⟩ := except_bind_ok h
  obtain ⟨f0, -, h⟩ := except_bind_ok h
  obtain ⟨a0, -, h⟩ := except_bind_ok h
  obtain ⟨f1, -, h⟩ := except_bind_ok h
  obtain ⟨a1, -, h⟩ := except_bind_ok h
  obtain ⟨f2, -, h⟩ := except_bind_ok h
  obtain ⟨liq, -, h⟩ := except_bind_ok h
  obtain ⟨f3, -, h⟩ := except_bind_ok h
  simp only [pure, Except.pure, Except.ok.injEq] at h
  subst h
  rfl

lemma decodeSwapData_contractId {cid : String} {t : List ScVal} {d : ScVal} {ev : PairEvent}
    (h : decodeSwapData cid t d = .ok ev) : ev.contractId = cid := by
  unfold decodeSwapData at h
  obtain ⟨fields, -, h⟩ := except_bind_ok h
  obtain ⟨sv, -, h⟩ := except_bind_ok h
  obtain ⟨f0, -, h⟩ := except_bind_ok h
  obtain ⟨f1, -, h⟩ := except_bind_ok h
  obtain ⟨f2, -, h⟩ := except_bind_ok h
  obtain ⟨aIn, -, h⟩ := except_bind_ok h
  obtain ⟨f3, -, h⟩ := except_bind_ok h
  obtain ⟨aOut, -, h⟩ := except_bind_ok h
  simp only [pure, Except.pure, Except.ok.injEq] at h
  subst h
  rfl

lemma decodeSyncData_contractId {cid : String} {d : ScVal} {ev : PairEvent}
    (h : decodeSyncData cid d = .ok ev) : ev.contractId = cid := by
  unfold decodeSyncData at h
  obtain ⟨fields, -, h⟩ := except_bind_ok h
  obtain ⟨f0, -, h⟩ := except_bind_ok h
  obtain ⟨r0, -, h⟩ := except_bind_ok h
  obtain ⟨f1, -, h⟩ := except_bind_ok h
  obtain ⟨r1, -, h⟩ := except_bind_ok h
  simp only [pure, Except.pure, Except.ok.injEq] at h
  subst h
  rfl

lemma except_map_ok {ε α β : Type} {f : α → β} {r : Except ε α} {b : β}
    (h : Except.map f r = .ok b) : ∃ a, r = .ok a ∧ f a = b := by
  cases r with
  | error e => simp [Except.map] at h
  | ok a => exact ⟨a, rfl, by simpa [Except.map] using h⟩

lemma processEvent_some_contractId {pid : String} {e : ContractEvent} {ev : PairEvent}
    (h : processEvent pid e = .ok (some ev)) : ev.contractId = pid := by
  unfold processEvent at h
  split at h
  · exact absurd h (by simp)
  · rename_i id heq
    split at h
    · rename_i hid
      split at h
      · exact absurd h (by simp)
      · rename_i t0 ts heqt
        split at h
        · obtain ⟨ev2, hm, he⟩ := except_map_ok h
          cases he
          exact hid ▸ decodeMintData_contractId hm
        · split at h
          · obtain ⟨ev2, hm, he⟩ := except_map_ok h
            cases he
            exact hid ▸ decodeBurnData_contractId hm
          · split at h
            · obtain ⟨ev2, hm, he⟩ := except_map_ok h
              cases he
              exact hid ▸ decodeSwapData_contractId hm
            · split at h
              · obtain ⟨ev2, hm, he⟩ := except_map_ok h
                cases he
                exact hid ▸ decodeSyncData_contractId hm
              · exact absurd h (by simp)
    · exact absurd h (by simp)

lemma decodeEventList_cons_skip {pid : String} {e : ContractEvent}
    (rest : List ContractEvent) (h : processEvent pid e = .ok none) :
    decodeEventList pid (e :: rest) = decodeEventList pid rest := by
  simp [decodeEventList, h]

lemma processEvent_noContract {pid : String} {e : ContractEvent}
    (h : e.contractId = none) : processEvent pid e = .ok none := by
  simp [processEvent, h]

lemma processEvent_otherContract {pid id : String} {e : ContractEvent}
    (h : e.contractId = some id) (hne : id ≠ pid) : processEvent pid e = .ok none := by
  simp [processEvent, h, hne]

lemma processEvent_emptyTopics {pid : String} {e : ContractEvent}
    (h : e.topics = []) : processEvent pid e = .ok none := by
  unfold processEvent
  cases hc : e.contractId with
  | none => rfl
  | some id => by_cases hid : id = pid <;> simp [h, hid]

lemma processEvent_unknownTag {pid : String} {e : ContractEvent} {t0 : ScVal} {ts : List ScVal}
    (h : e.topics = t0 :: ts)
    (hu : scValStr t0 ∉ (["mint", "burn", "swap", "sync"] : List String)) :
    processEvent pid e = .ok none := by
  simp only [List.mem_cons, List.mem_singleton, List.not_mem_nil, or_false, not_or] at hu
  obtain ⟨h1, h2, h3, h4⟩ := hu
  unfold processEvent
  cases hc : e.contractId with
  | none => rfl
  | some id => by_cases hid : id = pid <;> simp [h, hid, h1, h2, h3, h4]

lemma decodeEventList_append (pid : String) (es1 es2 : List ContractEvent) :
    decodeEventList pid (es1 ++ es2) =
      (decodeEventList pid es1).bind
        (fun l1 => Except.map (fun l2 => l1 ++ l2) (decodeEventList pid es2)) := by
  induction es1 with
  | nil =>
    simp only [List.nil_append, decodeEventList]
    cases h2 : decodeEventList pid es2 <;> simp [Except.bind, Except.map, Bind.bind]
  | cons e rest ih =>
    simp only [List.cons_append, decodeEventList, List.append_eq]
    cases hp : processEvent pid e with
    | error m => simp [Except.bind, Bind.bind]
    | ok r =>
      cases r with
      | none => exact ih
      | some ev =>
        dsimp only
        rw [ih]
        cases h1 : decodeEventList pid rest with
        | error m => simp [Except.bind, Bind.bind, Except.map]
        | ok l1 =>
          cases h2 : decodeEventList pid es2 <;>
            simp [Except.bind, Bind.bind, Except.map]

lemma decodeEventList_mem_contractId {pid : String} :
    ∀ {es : List ContractEvent} {l : List PairEvent} {ev : PairEvent},
      decodeEventList pid es = .ok l → ev ∈ l → ev.contractId = pid := by
  intro es
  induction es with
  | nil =>
    intro l ev h hm
    simp only [decodeEventList, Except.ok.injEq] at h
    subst h
    cases hm
  | cons e rest ih =>
    intro l ev h hm
    simp only [decodeEventList] at h
    cases hp : processEvent pid e with
    | error m => rw [hp] at h; cases h
    | ok r =>
      rw [hp] at h
      cases r with
      | none => exact ih h hm
      | some ev2 =>
        cases h1 : decodeEventList pid rest with
        | error m => rw [h1] at h; cases h
        | ok tail =>
          rw [h1] at h
          simp only [Except.map, Except.ok.injEq] at h
          subst h
          rcases List.mem_cons.mp hm with h | h
          · subst h
            exact processEvent_some_contractId hp
          · exact ih h1 h

/-! ## Decoder claims -/

/-- C1 (counterexample): the decoder is not total on malformed payloads of a
recognized tag.  A record event tagged `mint` for the requested pool whose
data payload is not a vector makes `decodePairEvents` raise (the source
evaluates `data.vec()!` on the wrong union arm), refuting the claim that
such an event still does not raise. -/
theorem decodePairEvents_raises_on_malformed_mint :
    decodePairEvents ⟨3, some ⟨[⟨some "CPOOL", [ScVal.sym "mint"], ScVal.i128 0⟩]⟩⟩ "CPOOL"
      = .error ("not a vec") := rfl

/-- C1 (amended): decodePairEvents never raises for unrecognized record
versions, missing payload sections, events with absent or foreign contract
identifiers, or unrecognized topic tags — all of these are silently
skipped; but for each recognized tag ('mint', 'burn', 'swap', 'sync') on
the requested pool, a data payload that is not a vector raises, a field
vector shorter than the tag's schema raises, and for 'mint', 'burn' and
'swap' a topic list lacking the sender topic raises ('sync' reads no topic
beyond the tag). -/
theorem decodePairEvents_skip_or_raise :
    ∀ (pid sender tokenIn tokenOut : String) (tm : TransactionMeta) (e : ContractEvent)
      (rest : List ContractEvent) (id : String) (a0 a1 liq : Int),
    (tm.version ≠ 3 → decodePairEvents tm pid = .ok [])
    ∧ (tm.sorobanMeta = none → decodePairEvents tm pid = .ok [])
    ∧ (e.contractId = none → decodeEventList pid (e :: rest) = decodeEventList pid rest)
    ∧ (e.contractId = some id → id ≠ pid →
        decodeEventList pid (e :: rest) = decodeEventList pid rest)
    ∧ (∀ t0 ts, e.topics = t0 :: ts →
        scValStr t0 ∉ (["mint", "burn", "swap", "sync"] : List String) →
        decodeEventList pid (e :: rest) = decodeEventList pid rest)
    ∧ isDecodeError (decodeEventList pid
        [⟨some pid, [ScVal.sym "mint", ScVal.address sender], ScVal.i128 a0⟩]) = true
    ∧ isDecodeError (decodeEventList pid
        [⟨some pid, [ScVal.sym "mint", ScVal.address sender],
          ScVal.vec (some [ScVal.i128 a0, ScVal.i128 a1])⟩]) = true
    ∧ isDecodeError (decodeEventList pid
        [⟨some pid, [ScVal.sym "mint"],
          ScVal.vec (some [ScVal.i128 a0, ScVal.i128 a1, ScVal.i128 liq])⟩]) = true
    ∧ isDecodeError (decodeEventList pid
        [⟨some pid, [ScVal.sym "burn", ScVal.address sender], ScVal.i128 a0⟩]) = true
    ∧ isDecodeError (decodeEventList pid
        [⟨some pid, [ScVal.sym "burn", ScVal.address sender],
          ScVal.vec (some [ScVal.i128 a0, ScVal.i128 a1, ScVal.i128 liq])⟩]) = true
    ∧ isDecodeError (decodeEventList pid
        [⟨some pid, [ScVal.sym "burn"],
          ScVal.vec (some [ScVal.i128 a0, ScVal.i128 a1, ScVal.i128 liq,
            ScVal.address sender])⟩]) = true
    ∧ isDecodeError (decodeEventList pid
        [⟨some pid, [ScVal.sym "swap", ScVal.address sender], ScVal.i128 a0⟩]) = true
    ∧ isDecodeError (decodeEventList pid
        [⟨some pid, [ScVal.sym "swap", ScVal.address sender],
          ScVal.vec (some [ScVal.address tokenIn, ScVal.address tokenOut,
            ScVal.i128 a0])⟩]) = true
    ∧ isDecodeError (decodeEventList pid
        [⟨some pid, [ScVal.sym "swap"],
          ScVal.vec (some [ScVal.address tokenIn, ScVal.address tokenOut,
            ScVal.i128 a0, ScVal.i128 a1])⟩]) = true
    ∧ isDecodeError (decodeEventList pid
        [⟨some pid, [ScVal.sym "sync"], ScVal.i128 a0⟩]) = true
    ∧ isDecodeError (decodeEventList pid
        [⟨some pid, [ScVal.sym "sync"], ScVal.vec (some [ScVal.i128 a0])⟩]) = true := by
  intro pid sender tokenIn tokenOut tm e rest id a0 a1 liq
  refine ⟨?_, ?_, ?_, ?_, ?_, ?_, ?_, ?_, ?_, ?_, ?_, ?_, ?_, ?_, ?_, ?_⟩
  · intro h
    simp [decodePairEvents, h]
  · intro h
    by_cases hv : tm.version ≠ 3 <;> simp [decodePairEvents, hv, h]
  · intro h
    exact decodeEventList_cons_skip rest (processEvent_noContract h)
  · intro h hne
    exact decodeEventList_cons_skip rest (processEvent_otherContract h hne)
  · intro t0 ts h hu
    exact decodeEventList_cons_skip rest (processEvent_unknownTag h hu)
  all_goals
    simp [decodeEventList, processEvent, decodeMintData, decodeBurnData, decodeSwapData,
      decodeSyncData, scValVecFields, getScVal, readI128, readAddress, scValStr,
      isDecodeError, bind, Except.bind, pure, Except.pure, Except.map]

/-- C1 (witness): the amended claim instantiated on concrete records — all
skip cases, and one malformed-payload raise for each of the four tags. -/
theorem decodePairEvents_skip_or_raise_witness :
    decodePairEvents ⟨0, none⟩ "PID" = .ok []
    ∧ decodePairEvents ⟨3, none⟩ "PID" = .ok []
    ∧ decodeEventList "PID" [⟨none, [], ScVal.void⟩] = decodeEventList "PID" []
    ∧ decodeEventList "PID" [⟨some "OTHER", [ScVal.sym "swap"], ScVal.void⟩]
        = decodeEventList "PID" []
    ∧ decodeEventList "PID" [⟨some "PID", [ScVal.sym "approve"], ScVal.void⟩]
        = decodeEventList "PID" []
    ∧ isDecodeError (decodeEventList "PID"
        [⟨some "PID", [ScVal.sym "mint", ScVal.address "GSENDER"], ScVal.i128 7⟩]) = true
    ∧ isDecodeError (decodeEventList "PID"
        [⟨some "PID", [ScVal.sym "burn", ScVal.address "GSENDER"], ScVal.i128 7⟩]) = true
    ∧ isDecodeError (decodeEventList "PID"
        [⟨some "PID", [ScVal.sym "swap"],
          ScVal.vec (some [ScVal.address "TIN", ScVal.address "TOUT",
            ScVal.i128 7, ScVal.i128 8])⟩]) = true
    ∧ isDecodeError (decodeEventList "PID"
        [⟨some "PID", [ScVal.sym "sync"], ScVal.vec (some [ScVal.i128 7])⟩]) = true := by
  obtain ⟨-, -, -, -, -, e6, -, -, e9, -, -, -, -, e14, -, e16⟩ :=
    decodePairEvents_skip_or_raise "PID" "GSENDER" "TIN" "TOUT" ⟨3, none⟩
      ⟨none, [], ScVal.void⟩ [] "X" 7 8 9
  refine ⟨?_, ?_, ?_, ?_, ?_, e6, e9, e14, e16⟩
  · exact (decodePairEvents_skip_or_raise "PID" "GSENDER" "TIN" "TOUT" ⟨0, none⟩
      ⟨none, [], ScVal.void⟩ [] "X" 0 0 0).1 (by decide)
  · exact (decodePairEvents_skip_or_raise "PID" "GSENDER" "TIN" "TOUT" ⟨3, none⟩
      ⟨none, [], ScVal.void⟩ [] "X" 0 0 0).2.1 rfl
  · exact (decodePairEvents_skip_or_raise "PID" "GSENDER" "TIN" "TOUT" ⟨3, none⟩
      ⟨none, [], ScVal.void⟩ [] "X" 0 0 0).2.2.1 rfl
  · exact (decodePairEvents_skip_or_raise "PID" "GSENDER" "TIN" "TOUT" ⟨3, none⟩
      ⟨some "OTHER", [ScVal.sym "swap"], ScVal.void⟩ [] "OTHER" 0 0 0).2.2.2.1 rfl
      (by decide)
  · exact (decodePairEvents_skip_or_raise "PID" "GSENDER" "TIN" "TOUT" ⟨3, none⟩
      ⟨some "PID", [ScVal.sym "approve"], ScVal.void⟩ [] "PID" 0 0 0).2.2.2.2.1
      (ScVal.sym "approve") [] rfl (by decide)

/-- C5: for a record event tagged to the requested pool, each known tag is
decoded positionally per the fixed schema — `swap` gives exactly one `Swap`
variant with sender from the topic after the tag and `tokenIn`, `tokenOut`,
`amountIn`, `amountOut` from data fields 0..3; `mint` gives `amount0`,
`amount1`, `liquidity`; `burn` gives `amount0`, `amount1`, `liquidity`,
`to`; `sync` gives `reserve0`, `reserve1` with no topic beyond the tag. -/
theorem decodePairEvents_schema :
    ∀ (pid sender tokenIn tokenOut dest : String) (amountIn amountOut a0 a1 liq r0 r1 : Int),
    decodePairEvents ⟨3, some ⟨[⟨some pid, [ScVal.sym "swap", ScVal.address sender],
        ScVal.vec (some [ScVal.address tokenIn, ScVal.address tokenOut,
          ScVal.i128 amountIn, ScVal.i128 amountOut])⟩]⟩⟩ pid
      = .ok [PairEvent.swap pid sender tokenIn tokenOut amountIn amountOut]
    ∧ decodePairEvents ⟨3, some ⟨[⟨some pid, [ScVal.sym "mint", ScVal.address sender],
        ScVal.vec (some [ScVal.i128 a0, ScVal.i128 a1, ScVal.i128 liq])⟩]⟩⟩ pid
      = .ok [PairEvent.mint pid sender a0 a1 liq]
    ∧ decodePairEvents ⟨3, some ⟨[⟨some pid, [ScVal.sym "burn", ScVal.address sender],
        ScVal.vec (some [ScVal.i128 a0, ScVal.i128 a1, ScVal.i128 liq,
          ScVal.address dest])⟩]⟩⟩ pid
      = .ok [PairEvent.burn pid sender a0 a1 liq dest]
    ∧ decodePairEvents ⟨3, some ⟨[⟨some pid, [ScVal.sym "sync"],
        ScVal.vec (some [ScVal.i128 r0, ScVal.i128 r1])⟩]⟩⟩ pid
      = .ok [PairEvent.sync pid r0 r1] := by
  intro pid sender tokenIn tokenOut dest amountIn amountOut a0 a1 liq r0 r1
  refine ⟨?_, ?_, ?_, ?_⟩ <;>
    simp [decodePairEvents, decodeEventList, processEvent, decodeSwapData, decodeMintData,
      decodeBurnData, decodeSyncData, scValVecFields, getScVal, readI128, readAddress,
      scValStr, bind, Except.bind, pure, Except.pure, Except.map]

/-- C6: decodePairEvents preserves the record's event order (decoding a
concatenation of event lists yields the concatenation of the decodings, in
order), events whose contract identifier differs from the requested pool, or
whose topic list is empty, or whose first topic is none of the four known
tags contribute no variant, and an unrecognized record version yields the
empty sequence. -/
theorem decodePairEvents_order_filter :
    ∀ (pid : String) (tm : TransactionMeta) (e : ContractEvent)
      (rest es1 es2 : List ContractEvent) (id : String),
    (tm.version ≠ 3 → decodePairEvents tm pid = .ok [])
    ∧ (e.contractId = some id → id ≠ pid →
        decodeEventList pid (e :: rest) = decodeEventList pid rest)
    ∧ (e.topics = [] → decodeEventList pid (e :: rest) = decodeEventList pid rest)
    ∧ (∀ t0 ts, e.topics = t0 :: ts →
        scValStr t0 ∉ (["mint", "burn", "swap", "sync"] : List String) →
        decodeEventList pid (e :: rest) = decodeEventList pid rest)
    ∧ decodeEventList pid (es1 ++ es2) =
        (decodeEventList pid es1).bind
          (fun l1 => Except.map (fun l2 => l1 ++ l2) (decodeEventList pid es2)) := by
  intro pid tm e rest es1 es2 id
  refine ⟨?_, ?_, ?_, ?_, decodeEventList_append pid es1 es2⟩
  · intro h
    simp [decodePairEvents, h]
  · intro h hne
    exact decodeEventList_cons_skip rest (processEvent_otherContract h hne)
  · intro h
    exact decodeEventList_cons_skip rest (processEvent_emptyTopics h)
  · intro t0 ts h hu
    exact decodeEventList_cons_skip rest (processEvent_unknownTag h hu)

/-- C6 (witness): order preservation and filtering on concrete records. -/
theorem decodePairEvents_order_filter_witness :
    decodePairEvents ⟨1, none⟩ "PID" = .ok []
    ∧ decodeEventList "PID" [⟨some "OTHER", [ScVal.sym "swap"], ScVal.void⟩]
        = decodeEventList "PID" []
    ∧ decodeEventList "PID" [⟨some "PID", [], ScVal.void⟩] = decodeEventList "PID" []
    ∧ decodeEventList "PID" [⟨some "PID", [ScVal.sym "transfer"], ScVal.void⟩]
        = decodeEventList "PID" []
    ∧ decodeEventList "PID"
        ([⟨some "PID", [ScVal.sym "sync"], ScVal.vec (some [ScVal.i128 1, ScVal.i128 2])⟩]
          ++ [⟨some "PID", [ScVal.sym "sync"], ScVal.vec (some [ScVal.i128 3, ScVal.i128 4])⟩])
        = (decodeEventList "PID"
            [⟨some "PID", [ScVal.sym "sync"], ScVal.vec (some [ScVal.i128 1, ScVal.i128 2])⟩]).bind
          (fun l1 => Except.map (fun l2 => l1 ++ l2) (decodeEventList "PID"
            [⟨some "PID", [ScVal.sym "sync"], ScVal.vec (some [ScVal.i128 3, ScVal.i128 4])⟩])) := by
  refine ⟨?_, ?_, ?_, ?_, ?_⟩
  · exact (decodePairEvents_order_filter "PID" ⟨1, none⟩ ⟨none, [], ScVal.void⟩
      [] [] [] "X").1 (by decide)
  · exact (decodePairEvents_order_filter "PID" ⟨1, none⟩
      ⟨some "OTHER", [ScVal.sym "swap"], ScVal.void⟩ [] [] [] "OTHER").2.1 rfl (by decide)
  · exact (decodePairEvents_order_filter "PID" ⟨1, none⟩
      ⟨some "PID", [], ScVal.void⟩ [] [] [] "PID").2.2.1 rfl
  · exact (decodePairEvents_order_filter "PID" ⟨1, none⟩
      ⟨some "PID", [ScVal.sym "transfer"], ScVal.void⟩ [] [] [] "PID").2.2.2.1
      (ScVal.sym "transfer") [] rfl (by decide)
  · exact (decodePairEvents_order_filter "PID" ⟨1, none⟩ ⟨none, [], ScVal.void⟩ []
      [⟨some "PID", [ScVal.sym "sync"], ScVal.vec (some [ScVal.i128 1, ScVal.i128 2])⟩]
      [⟨some "PID", [ScVal.sym "sync"], ScVal.vec (some [ScVal.i128 3, ScVal.i128 4])⟩]
      "X").2.2.2.2

/-- C10: every variant in a successful decode carries the requested pool's
contract identifier (an invariant of the output), and a record event with an
absent contract identifier is skipped rather than decoded. -/
theorem decodePairEvents_contractId_invariant :
    ∀ (tm : TransactionMeta) (pid : String) (l : List PairEvent) (ev : PairEvent)
      (e : ContractEvent) (rest : List ContractEvent),
    (decodePairEvents tm pid = .ok l → ev ∈ l → ev.contractId = pid)
    ∧ (e.contractId = none → decodeEventList pid (e :: rest) = decodeEventList pid rest) := by
  intro tm pid l ev e rest
  constructor
  · intro h hm
    unfold decodePairEvents at h
    split at h
    · cases h
      cases hm
    · split at h
      · cases h
        cases hm
      · exact decodeEventList_mem_contractId h hm
  · intro h
    exact decodeEventList_cons_skip rest (processEvent_noContract h)

/-- C10 (witness): the invariant on a concrete decoded record. -/
theorem decodePairEvents_contractId_invariant_witness :
    PairEvent.contractId (PairEvent.sync "PID" 1 2) = "PID"
    ∧ decodeEventList "PID" [⟨none, [ScVal.sym "swap"], ScVal.void⟩]
        = decodeEventList "PID" [] := by
  constructor
  · exact (decodePairEvents_contractId_invariant
      ⟨3, some ⟨[⟨some "PID", [ScVal.sym "sync"],
        ScVal.vec (some [ScVal.i128 1, ScVal.i128 2])⟩]⟩⟩ "PID"
      [PairEvent.sync "PID" 1 2] (PairEvent.sync "PID" 1 2) ⟨none, [], ScVal.void⟩ []).1
      rfl (List.mem_singleton.mpr rfl)
  · exact (decodePairEvents_contractId_invariant ⟨0, none⟩ "PID" [] (PairEvent.sync "PID" 1 2)
      ⟨none, [ScVal.sym "swap"], ScVal.void⟩ []).2 rfl

/-! ## Arithmetic lemmas for the swap formulas -/

lemma ediv_bounds (N D : Int) (hD : 0 < D) : D * (N / D) ≤ N ∧ N < D * (N / D + 1) := by
  have h1 := Int.emod_nonneg N (ne_of_gt hD)
  have h2 := Int.emod_lt_of_pos N hD
  have he := Int.ediv_add_emod N D
  constructor <;> [linarith; nlinarith]

lemma ediv_le_ediv_cross {N1 D1 N2 D2 : Int} (h1 : 0 < D1) (h2 : 0 < D2)
    (h : N1 * D2 ≤ N2 * D1) : N1 / D1 ≤ N2 / D2 := by
  rw [Int.le_ediv_iff_mul_le h2]
  have hb := (ediv_bounds N1 D1 h1).1
  have step : D1 * (N1 / D1) * D2 ≤ N1 * D2 := mul_le_mul_of_nonneg_right hb (le_of_lt h2)
  have hmul : N1 / D1 * D2 * D1 ≤ N2 * D1 := by nlinarith
  exact le_of_mul_le_mul_right hmul h1

lemma ceil_bounds (N D : Int) (hD : 0 < D) :
    N ≤ D * ((N + D - 1) / D) ∧ D * ((N + D - 1) / D - 1) < N := by
  obtain ⟨hlo, hhi⟩ := ediv_bounds (N + D - 1) D hD
  constructor <;> nlinarith

lemma getAmountOut_pos_eq {a rIn rOut f : Int} (ha : 0 < a) (hi : 0 < rIn) (ho : 0 < rOut) :
    getAmountOut a rIn rOut f =
      .ok (a * (10000 - f) * rOut / (rIn * 10000 + a * (10000 - f))) := by
  unfold getAmountOut
  rw [if_neg (not_le.mpr ha), if_neg (not_or.mpr ⟨not_le.mpr hi, not_le.mpr ho⟩)]

lemma getAmountIn_pos_eq {aOut rIn rOut f : Int} (ha : 0 < aOut) (hi : 0 < rIn)
    (ho : aOut < rOut) :
    getAmountIn aOut rIn rOut f =
      .ok ((rIn * aOut * 10000 + (rOut - aOut) * (10000 - f) - 1) /
        ((rOut - aOut) * (10000 - f))) := by
  unfold getAmountIn
  rw [if_neg (not_le.mpr ha),
    if_neg (not_or.mpr ⟨not_le.mpr hi, not_le.mpr (lt_trans ha ho)⟩), if_neg (not_le.mpr ho)]

/-! ## Swap math claims -/

/-- C2: for positive amount and reserves and a fee within the bps whole,
`getAmountOut` returns the floor of
`amountIn*(10000-feeBps)*reserveOut / (reserveIn*10000 + amountIn*(10000-feeBps))`
(characterized by the two floor inequalities), a 10000-bps fee forces output
0, a nonpositive amount fails `ValidationError` ("amount must be greater
than zero"), and a nonpositive reserve fails `ValidationError`
("insufficient liquidity"), with no partial result. -/
theorem getAmountOut_correct :
    ∀ (amountIn reserveIn reserveOut feeBps out : Int),
    (amountIn ≤ 0 → getAmountOut amountIn reserveIn reserveOut feeBps =
      .error (.validation ("amount must be greater than zero")))
    ∧ (0 < amountIn → reserveIn ≤ 0 ∨ reserveOut ≤ 0 →
        getAmountOut amountIn reserveIn reserveOut feeBps =
          .error (.validation ("insufficient liquidity")))
    ∧ (0 < amountIn → 0 < reserveIn → 0 < reserveOut →
        getAmountOut amountIn reserveIn reserveOut feeBps =
          .ok (amountIn * (10000 - feeBps) * reserveOut /
            (reserveIn * 10000 + amountIn * (10000 - feeBps))))
    ∧ (0 < amountIn → 0 < reserveIn → 0 < reserveOut → 0 ≤ feeBps → feeBps ≤ 10000 →
        getAmountOut amountIn reserveIn reserveOut feeBps = .ok out →
        (reserveIn * 10000 + amountIn * (10000 - feeBps)) * out ≤
            amountIn * (10000 - feeBps) * reserveOut
        ∧ amountIn * (10000 - feeBps) * reserveOut <
            (reserveIn * 10000 + amountIn * (10000 - feeBps)) * (out + 1)
        ∧ (feeBps = 10000 → out = 0)) := by
  intro a rIn rOut f out
  refine ⟨?_, ?_, ?_, ?_⟩
  · intro h
    unfold getAmountOut
    rw [if_pos h]
  · intro ha h
    unfold getAmountOut
    rw [if_neg (not_le.mpr ha), if_pos h]
  · intro ha hi ho
    exact getAmountOut_pos_eq ha hi ho
  · intro ha hi ho hf0 hf1 hok
    rw [getAmountOut_pos_eq ha hi ho] at hok
    injection hok with hout
    have hD : 0 < rIn * 10000 + a * (10000 - f) := by nlinarith
    obtain ⟨hlo, hhi⟩ := ediv_bounds (a * (10000 - f) * rOut) (rIn * 10000 + a * (10000 - f)) hD
    rw [hout] at hlo hhi
    refine ⟨hlo, hhi, ?_⟩
    intro hfee
    subst hfee
    rw [← hout]
    simp

/-- C2 (witness): the formula and both failure modes at concrete inputs. -/
theorem getAmountOut_correct_witness :
    getAmountOut 0 10000 10000 30 = .error (.validation ("amount must be greater than zero"))
    ∧ getAmountOut 1000 0 10000 30 = .error (.validation ("insufficient liquidity"))
    ∧ getAmountOut 1000 10000 10000 30 = .ok 906
    ∧ ((10000 : Int) * 10000 + 1000 * (10000 - 30)) * 906 ≤ 1000 * (10000 - 30) * 10000
    ∧ (1000 : Int) * (10000 - 30) * 10000 < (10000 * 10000 + 1000 * (10000 - 30)) * (906 + 1)
    ∧ getAmountOut 1000 10000 10000 10000 = .ok 0 := by
  have h3 : getAmountOut 1000 10000 10000 30 = .ok 906 := by
    rw [(getAmountOut_correct 1000 10000 10000 30 906).2.2.1 (by decide) (by decide) (by decide)]
    decide
  obtain ⟨b1, b2, -⟩ := (getAmountOut_correct 1000 10000 10000 30 906).2.2.2
    (by decide) (by decide) (by decide) (by decide) (by decide) h3
  refine ⟨(getAmountOut_correct 0 10000 10000 30 0).1 (by decide),
    (getAmountOut_correct 1000 0 10000 30 0).2.1 (by decide) (Or.inl (by decide)),
    h3, b1, b2, ?_⟩
  rw [(getAmountOut_correct 1000 10000 10000 10000 0).2.2.1 (by decide) (by decide) (by decide)]
  decide

/-- C4: every successful `getAmountOut` keeps the constant product
non-decreasing — `(reserveIn+amountIn)*(reserveOut-amountOut) ≥
reserveIn*reserveOut` — and its output is always strictly below the output
reserve. -/
theorem getAmountOut_constant_product :
    ∀ (amountIn reserveIn reserveOut feeBps out : Int),
    0 < amountIn → 0 < reserveIn → 0 < reserveOut → 0 ≤ feeBps → feeBps ≤ 10000 →
    getAmountOut amountIn reserveIn reserveOut feeBps = .ok out →
    reserveIn * reserveOut ≤ (reserveIn + amountIn) * (reserveOut - out)
    ∧ out < reserveOut := by
  intro a rIn rOut f out ha hi ho hf0 hf1 hok
  rw [getAmountOut_pos_eq ha hi ho] at hok
  injection hok with hout
  have hD : 0 < rIn * 10000 + a * (10000 - f) := by nlinarith
  obtain ⟨hlo, hhi⟩ := ediv_bounds (a * (10000 - f) * rOut) (rIn * 10000 + a * (10000 - f)) hD
  rw [hout] at hlo hhi
  have hcn : 0 ≤ a * (10000 - f) := mul_nonneg ha.le (by omega)
  have hout_lt : out < rOut := by nlinarith
  refine ⟨?_, hout_lt⟩
  nlinarith [mul_nonneg (mul_nonneg ha.le hf0) (sub_nonneg.mpr hout_lt.le)]

/-- C4 (witness): the invariant at a concrete successful swap. -/
theorem getAmountOut_constant_product_witness :
    (10000 : Int) * 10000 ≤ (10000 + 1000) * (10000 - 906) ∧ (906 : Int) < 10000 :=
  getAmountOut_constant_product 1000 10000 10000 30 906
    (by decide) (by decide) (by decide) (by decide) (by decide) (by decide)

/-- C8 (counterexample): `getAmountOut` is not strictly monotone, because of
flooring.  With reserves (10000, 1) and zero fee, inputs 1 and 2 both give
output 0, and with reserves (10000, 10000) and input 1000, fees 0 bps and
1 bps both give output 909 — refuting strict monotonicity in `amountIn` and
strict antitonicity in `feeBps`. -/
theorem getAmountOut_not_strictly_monotone :
    getAmountOut 1 10000 1 0 = .ok 0 ∧ getAmountOut 2 10000 1 0 = .ok 0
    ∧ getAmountOut 1000 10000 10000 0 = .ok 909
    ∧ getAmountOut 1000 10000 10000 1 = .ok 909 := by
  refine ⟨by decide, by decide, by decide, by decide⟩

/-- C8 (amended): for fixed positive reserves and fee in the bps whole,
`getAmountOut` is monotone non-decreasing in `amountIn`, and for fixed
positive input it is monotone non-increasing in `feeBps` (strict
monotonicity fails on the integer outputs because of flooring; it holds
only for the exact rational values before rounding). -/
theorem getAmountOut_monotone :
    ∀ (a1 a2 amountIn reserveIn reserveOut feeBps f1 f2 o1 o2 o3 o4 : Int),
    (0 < a1 → a1 ≤ a2 → 0 < reserveIn → 0 < reserveOut → 0 ≤ feeBps → feeBps ≤ 10000 →
      getAmountOut a1 reserveIn reserveOut feeBps = .ok o1 →
      getAmountOut a2 reserveIn reserveOut feeBps = .ok o2 → o1 ≤ o2)
    ∧ (0 < amountIn → 0 < reserveIn → 0 < reserveOut → 0 ≤ f1 → f1 ≤ f2 → f2 ≤ 10000 →
      getAmountOut amountIn reserveIn reserveOut f1 = .ok o3 →
      getAmountOut amountIn reserveIn reserveOut f2 = .ok o4 → o4 ≤ o3) := by
  intro a1 a2 aIn rIn rOut f f1 f2 o1 o2 o3 o4
  constructor
  · intro ha1 h12 hi ho hf0 hf1 hok1 hok2
    have ha2 : 0 < a2 := lt_of_lt_of_le ha1 h12
    rw [getAmountOut_pos_eq ha1 hi ho] at hok1
    rw [getAmountOut_pos_eq ha2 hi ho] at hok2
    injection hok1 with e1
    injection hok2 with e2
    rw [← e1, ← e2]
    have hc : (0 : Int) ≤ 10000 - f := by omega
    refine ediv_le_ediv_cross (by nlinarith) (by nlinarith) ?_
    nlinarith [mul_nonneg (mul_nonneg (mul_nonneg (sub_nonneg.mpr h12) hc) ho.le)
      (mul_pos hi (show (0 : Int) < 10000 by norm_num)).le]
  · intro ha hi ho hf0 h12 hf1 hok1 hok2
    rw [getAmountOut_pos_eq ha hi ho] at hok1 hok2
    injection hok1 with e1
    injection hok2 with e2
    rw [← e1, ← e2]
    have hc2 : (0 : Int) ≤ 10000 - f2 := by omega
    have hcd : (0 : Int) ≤ f2 - f1 := by omega
    refine ediv_le_ediv_cross (by nlinarith) (by nlinarith) ?_
    nlinarith [mul_nonneg (mul_nonneg (mul_nonneg hcd ha.le) ho.le)
      (mul_pos hi (show (0 : Int) < 10000 by norm_num)).le]

/-- C8 (witness): monotonicity instantiated on concrete swaps. -/
theorem getAmountOut_monotone_witness :
    ((906 : Int) ≤ 1662 ∧ (900 : Int) ≤ 906) := by
  constructor
  · exact (getAmountOut_monotone 1000 2000 1000 10000 10000 30 30 100 906 1662 906 900).1
      (by decide) (by decide) (by decide) (by decide) (by decide) (by decide)
      (by decide) (by decide)
  · exact (getAmountOut_monotone 1000 2000 1000 10000 10000 30 30 100 906 1662 906 900).2
      (by decide) (by decide) (by decide) (by decide) (by decide) (by decide)
      (by decide) (by decide)

/-- C3: for `0 < amountOut < reserveOut`, positive reserves and a fee
strictly below 10000 bps, `getAmountIn` returns the ceiling of
`reserveIn*amountOut*10000 / ((reserveOut-amountOut)*(10000-feeBps))`
(characterized by the two ceiling inequalities), and the returned input
never under-supplies: feeding it back through `getAmountOut` on the same
reserves realizes at least `amountOut`.  It fails `ValidationError`
("output exceeds available reserve") when `amountOut ≥ reserveOut`, and
fails `ValidationError` when `amountOut ≤ 0` or a reserve is nonpositive. -/
theorem getAmountIn_correct :
    ∀ (amountOut reserveIn reserveOut feeBps inAmt out2 : Int),
    (amountOut ≤ 0 →
      isValidationFailure (getAmountIn amountOut reserveIn reserveOut feeBps) = true)
    ∧ (0 < amountOut → reserveIn ≤ 0 ∨ reserveOut ≤ 0 →
      isValidationFailure (getAmountIn amountOut reserveIn reserveOut feeBps) = true)
    ∧ (0 < amountOut → 0 < reserveIn → 0 < reserveOut → reserveOut ≤ amountOut →
        getAmountIn amountOut reserveIn reserveOut feeBps =
          .error (.validation ("output exceeds available reserve")))
    ∧ (0 < amountOut → amountOut < reserveOut → 0 < reserveIn →
        getAmountIn amountOut reserveIn reserveOut feeBps =
          .ok ((reserveIn * amountOut * 10000 + (reserveOut - amountOut) * (10000 - feeBps) - 1) /
            ((reserveOut - amountOut) * (10000 - feeBps))))
    ∧ (0 < amountOut → amountOut < reserveOut → 0 < reserveIn → 0 ≤ feeBps → feeBps < 10000 →
        getAmountIn amountOut reserveIn reserveOut feeBps = .ok inAmt →
        reserveIn * amountOut * 10000 ≤ (reserveOut - amountOut) * (10000 - feeBps) * inAmt
        ∧ (reserveOut - amountOut) * (10000 - feeBps) * (inAmt - 1) <
            reserveIn * amountOut * 10000
        ∧ (getAmountOut inAmt reserveIn reserveOut feeBps = .ok out2 → amountOut ≤ out2)) := by
  intro aOut rIn rOut f inAmt out2
  refine ⟨?_, ?_, ?_, ?_, ?_⟩
  · intro h
    unfold getAmountIn
    rw [if_pos h]
    rfl
  · intro ha h
    unfold getAmountIn
    rw [if_neg (not_le.mpr ha), if_pos h]
    rfl
  · intro ha hi ho hge
    unfold getAmountIn
    rw [if_neg (not_le.mpr ha), if_neg (not_or.mpr ⟨not_le.mpr hi, not_le.mpr ho⟩),
      if_pos hge]
  · intro ha ho hi
    exact getAmountIn_pos_eq ha hi ho
  · intro ha ho hi hf0 hf1 hok
    rw [getAmountIn_pos_eq ha hi ho] at hok
    injection hok with hin
    have hD : 0 < (rOut - aOut) * (10000 - f) :=
      mul_pos (by omega) (by omega)
    obtain ⟨hlo, hhi⟩ := ceil_bounds (rIn * aOut * 10000) ((rOut - aOut) * (10000 - f)) hD
    rw [hin] at hlo hhi
    have hsupply : rIn * aOut * 10000 ≤ (rOut - aOut) * (10000 - f) * inAmt := by nlinarith
    refine ⟨hsupply, by nlinarith, ?_⟩
    intro hout
    have hNpos : 0 < rIn * aOut * 10000 := by positivity
    have hinpos : 0 < inAmt := by nlinarith
    have hro : (0 : Int) < rOut := by omega
    rw [getAmountOut_pos_eq hinpos hi hro] at hout
    injection hout with hout2
    rw [← hout2]
    rw [Int.le_ediv_iff_mul_le (by nlinarith)]
    nlinarith

/-- C3 (witness): ceiling rounding, round trip, and the failure modes at
concrete inputs. -/
theorem getAmountIn_correct_witness :
    isValidationFailure (getAmountIn 0 1000 1000 30) = true
    ∧ isValidationFailure (getAmountIn 100 0 1000 30) = true
    ∧ getAmountIn 2000 1000 1000 30 = .error (.validation ("output exceeds available reserve"))
    ∧ getAmountIn 1000 10000 10000 0 = .ok 1112
    ∧ (10000 : Int) * 1000 * 10000 ≤ (10000 - 1000) * (10000 - 0) * 1112
    ∧ (1000 : Int) ≤ 1000 := by
  have h4 : getAmountIn 1000 10000 10000 0 = .ok 1112 := by
    rw [(getAmountIn_correct 1000 10000 10000 0 1112 1000).2.2.2.1
      (by decide) (by decide) (by decide)]
    decide
  obtain ⟨b1, -, b3⟩ := (getAmountIn_correct 1000 10000 10000 0 1112 1000).2.2.2.2
    (by decide) (by decide) (by decide) (by decide) (by decide) h4
  refine ⟨(getAmountIn_correct 0 1000 1000 30 0 0).1 (by decide),
    (getAmountIn_correct 100 0 1000 30 0 0).2.1 (by decide) (Or.inl (by decide)),
    (getAmountIn_correct 2000 1000 1000 30 0 0).2.2.1
      (by decide) (by decide) (by decide) (by decide),
    h4, b1, b3 (by decide)⟩

/-! ## Square root correctness -/

lemma iter_step (v g : Nat) :
    Nat.sqrt.iter v g =
      if (g + v / g) / 2 < g then Nat.sqrt.iter v ((g + v / g) / 2) else g := by
  conv_lhs => unfold Nat.sqrt.iter
  split
  · rename_i h
    simp [dif_pos h]
  · rename_i h
    simp [dif_neg h]

lemma babylonianGo_eq_iter (v : Nat) :
    ∀ fuel x, x ≤ fuel → babylonianGo v fuel x = Nat.sqrt.iter v x := by
  intro fuel
  induction fuel with
  | zero =>
    intro x hx
    have hx0 : x = 0 := Nat.le_zero.mp hx
    subst hx0
    rw [iter_step]
    simp [babylonianGo]
  | succ fuel ih =>
    intro x hx
    rw [iter_step]
    show (if (x + v / x) / 2 < x then babylonianGo v fuel ((x + v / x) / 2) else x) = _
    by_cases h : (x + v / x) / 2 < x
    · rw [if_pos h, if_pos h, ih _ (by omega)]
    · rw [if_neg h, if_neg h]

lemma half_succ_sq_big (n : Nat) : n < (n / 2 + 2) * (n / 2 + 2) := by
  have h1 : n ≤ 2 * (n / 2) + 1 := by omega
  nlinarith

lemma babylonian_eq_sqrt (n : Nat) : babylonianGo n (n / 2 + 1) (n / 2 + 1) = Nat.sqrt n := by
  rw [babylonianGo_eq_iter n (n / 2 + 1) (n / 2 + 1) le_rfl]
  exact Nat.eq_sqrt.mpr ⟨Nat.sqrt.iter_sq_le n (n / 2 + 1),
    Nat.sqrt.lt_iter_succ_sq n (n / 2 + 1) (half_succ_sq_big n)⟩

lemma sqrt_nonneg_eq {v : Int} (h : 0 ≤ v) :
    sqrt v = .ok ((Nat.sqrt v.toNat : Nat) : Int) := by
  unfold sqrt
  rw [if_neg (not_lt.mpr h), babylonian_eq_sqrt]

/-- C9: `sqrt` computes the floor of the exact integer square root of every
nonnegative operand — exactly `Nat.sqrt`, characterized by
`r*r ≤ value < (r+1)*(r+1)` — via Babylonian iteration from an initial
estimate at least the true root; `sqrt 0 = 0`, `sqrt 1 = 1`, `sqrt 2 = 1`,
and `sqrt (10^36) = 10^18` exactly (no precision loss); a negative operand
fails `ValidationError` ("square root of negative number"). -/
theorem sqrt_correct :
    ∀ (value r : Int),
    (value < 0 → sqrt value = .error (.validation ("square root of negative number")))
    ∧ (0 ≤ value → sqrt value = .ok ((Nat.sqrt value.toNat : Nat) : Int))
    ∧ (0 ≤ value → sqrt value = .ok r →
        0 ≤ r ∧ r * r ≤ value ∧ value < (r + 1) * (r + 1))
    ∧ (0 ≤ value → (Nat.sqrt value.toNat : Int) ≤ value.toNat / 2 + 1)
    ∧ sqrt 0 = .ok 0 ∧ sqrt 1 = .ok 1 ∧ sqrt 2 = .ok 1
    ∧ sqrt (10 ^ 36) = .ok (10 ^ 18) := by
  intro v r
  refine ⟨?_, fun h => sqrt_nonneg_eq h, ?_, ?_, by decide, by decide, by decide, ?_⟩
  · intro h
    unfold sqrt
    rw [if_pos h]
  · intro h hok
    rw [sqrt_nonneg_eq h] at hok
    injection hok with hr
    have h1 := Nat.sqrt_le v.toNat
    have h2 : v.toNat < (Nat.sqrt v.toNat + 1) * (Nat.sqrt v.toNat + 1) :=
      Nat.lt_succ_sqrt v.toNat
    have hv : (v.toNat : Int) = v := Int.toNat_of_nonneg h
    refine ⟨?_, ?_, ?_⟩
    · rw [← hr]
      exact_mod_cast Nat.zero_le _
    · rw [← hr, ← hv]
      exact_mod_cast h1
    · rw [← hr, ← hv]
      exact_mod_cast h2
  · intro h
    have hlt : Nat.sqrt v.toNat < v.toNat / 2 + 2 :=
      Nat.sqrt_lt.mpr (half_succ_sq_big v.toNat)
    exact_mod_cast Nat.lt_succ_iff.mp hlt
  · have he : ((10 : Int) ^ 36).toNat = (10 ^ 18) * (10 ^ 18) := by decide
    rw [sqrt_nonneg_eq (by positivity), he, Nat.sqrt_eq]
    norm_num

/-- C9 (witness): the square root characterization at concrete operands. -/
theorem sqrt_correct_witness :
    sqrt (-1) = .error (.validation ("square root of negative number"))
    ∧ sqrt (10 ^ 36) = .ok (10 ^ 18)
    ∧ (3 : Int) * 3 ≤ 10 ∧ (10 : Int) < (3 + 1) * (3 + 1) := by
  obtain ⟨-, -, h3, -⟩ := sqrt_correct 10 3
  have hr := h3 (by decide) (by decide)
  exact ⟨(sqrt_correct (-1) 0).1 (by decide),
    (sqrt_correct (10 ^ 36) 0).2.2.2.2.2.2.2, hr.2.1, hr.2.2⟩

/-! ## First-deposit liquidity quote -/

/-- C7: on the first-deposit path (no pool exists), the quote returns the
desired amounts as given (B defaulting to A when not supplied), LP tokens
equal to the integer square root of `amountA * amountB` minus
`MIN_LIQUIDITY`, a full pool share, and both prices at `PRICE_SCALE`; when
that LP amount would be nonpositive the call fails `ValidationError`
instead of clamping. -/
theorem getAddLiquidityQuote_first_deposit :
    ∀ (tokenA tokenB : String) (amountADesired : Int) (amountBDesired : Option Int),
    (0 ≤ amountADesired * amountBDesired.getD amountADesired →
      MIN_LIQUIDITY <
        ((Nat.sqrt (amountADesired * amountBDesired.getD amountADesired).toNat : Nat) : Int) →
      getAddLiquidityQuote none tokenA tokenB amountADesired amountBDesired =
        .ok ⟨amountADesired, amountBDesired.getD amountADesired,
          ((Nat.sqrt (amountADesired * amountBDesired.getD amountADesired).toNat : Nat) : Int)
            - MIN_LIQUIDITY, 1, PRICE_SCALE, PRICE_SCALE⟩)
    ∧ (0 ≤ amountADesired * amountBDesired.getD amountADesired →
      ((Nat.sqrt (amountADesired * amountBDesired.getD amountADesired).toNat : Nat) : Int)
          - MIN_LIQUIDITY ≤ 0 →
      isValidationFailure
        (getAddLiquidityQuote none tokenA tokenB amountADesired amountBDesired) = true) := by
  intro tA tB aD bD
  constructor
  · intro h0 hgt
    simp only [getAddLiquidityQuote, sqrt_nonneg_eq h0]
    rw [if_neg (by omega)]
  · intro h0 hle
    simp only [getAddLiquidityQuote, sqrt_nonneg_eq h0]
    rw [if_pos (by omega)]
    rfl

/-- C7 (witness): first deposit of 2,500,000 of each token, and a deposit
too small to mint liquidity. -/
theorem getAddLiquidityQuote_first_deposit_witness :
    getAddLiquidityQuote none "TOKEN_A" "TOKEN_B" 2500000 none =
      .ok ⟨2500000, 2500000, 2500000 - MIN_LIQUIDITY, 1, PRICE_SCALE, PRICE_SCALE⟩
    ∧ isValidationFailure (getAddLiquidityQuote none "TOKEN_A" "TOKEN_B" 1 none) = true := by
  have e1 : ((Nat.sqrt ((2500000 : Int) * (none : Option Int).getD 2500000).toNat : Nat) : Int)
      = 2500000 := by
    rw [show ((2500000 : Int) * (none : Option Int).getD 2500000).toNat
        = 2500000 * 2500000 from by decide, Nat.sqrt_eq]
    norm_num
  have e2 : ((Nat.sqrt ((1 : Int) * (none : Option Int).getD 1).toNat : Nat) : Int) = 1 := by
    rw [show ((1 : Int) * (none : Option Int).getD 1).toNat = 1 from by decide, Nat.sqrt_one]
    norm_num
  constructor
  · have h := (getAddLiquidityQuote_first_deposit "TOKEN_A" "TOKEN_B" 2500000 none).1
      (by norm_num) (by rw [e1]; decide)
    rw [e1] at h
    exact h
  · exact (getAddLiquidityQuote_first_deposit "TOKEN_A" "TOKEN_B" 1 none).2
      (by norm_num) (by rw [e2]; decide)

end CoralSwap
